import Mathlib

/-!
Verification development for the node-progress repository
(ProgressBar in src/ProgressBar.ts, ProgressStream and speedometer in
src/utils.ts).  The TypeScript classes are shallowly embedded: stateful
methods become explicit state-passing functions, terminal side effects
become event traces, JS numbers become rationals (with an extended type
for Infinity and NaN where JS division by zero can occur), and throws
become error values produced before any state mutation, as in the source.
-/

/-! ## JS numbers -/

/-- A JS number: a finite value, an infinity, or NaN. -/
inductive JsNum where
  | num : ℚ → JsNum
  | posInf : JsNum
  | negInf : JsNum
  | nan : JsNum
deriving DecidableEq, Repr

/-- A JS value as seen by the validators: a number, or a value of any
other type (string, undefined, object, ...). -/
inductive JsValue where
  | num : JsNum → JsValue
  | nonNumber : JsValue
deriving DecidableEq, Repr

/-- utils.ts isNumber: typeof v === 'number' && !isNaN(v). -/
def jsvIsNumber : JsValue → Bool
  | .num .nan => false
  | .num _ => true
  | .nonNumber => false

/-- Global isFinite on a value already known to be of number type. -/
def jsvIsFinite : JsValue → Bool
  | .num (.num _) => true
  | _ => false

/-- JS comparison v <= 0 (false on NaN; only reached on numbers). -/
def jsvLeZero : JsValue → Bool
  | .num (.num q) => decide (q ≤ 0)
  | .num .negInf => true
  | _ => false

/-- JS comparison v < 0 (false on NaN; only reached on numbers). -/
def jsvLtZero : JsValue → Bool
  | .num (.num q) => decide (q < 0)
  | .num .negInf => true
  | _ => false

/-- The finite rational carried by a JS value; 0 on the non-finite cases,
which every caller rules out by validation first. -/
def jsvToRat : JsValue → ℚ
  | .num (.num q) => q
  | _ => 0

/-- Math.round: round half toward positive infinity. -/
def jsRoundQ (q : ℚ) : ℚ := (Int.floor (q + 1/2) : ℤ)

/-- Math.round producing an integer (used for the bar fill width). -/
def jsRoundInt (q : ℚ) : ℤ := Int.floor (q + 1/2)

/-- utils.ts round(num, precision): Math.round for precision 0, otherwise
Math.round(num * 10^p) / 10^p. -/
def roundQ (q : ℚ) (p : ℕ) : ℚ :=
  if p = 0 then jsRoundQ q else jsRoundQ (q * 10 ^ p) / 10 ^ p

/-- round(·, 3) extended to non-finite JS numbers: Math.round fixes
Infinity and NaN. -/
def jsRound3 : JsNum → JsNum
  | .num q => .num (roundQ q 3)
  | x => x

/-- JS division a / b of finite numbers: Infinity, -Infinity or NaN when
b = 0, the exact quotient otherwise. -/
def jsDivQ (a b : ℚ) : JsNum :=
  if b = 0 then
    if 0 < a then .posInf else if a < 0 then .negInf else .nan
  else .num (a / b)

/-- Division of a JS number by a positive finite constant (used for the
eta / 1000 token scaling). -/
def jsNumDivPos (v : JsNum) (d : ℚ) : JsNum :=
  match v with
  | .num q => .num (q / d)
  | x => x

/-! ## Decimal printing (Number.prototype.toFixed and toString) -/

/-- One decimal digit as a character. -/
def digitChar : ℕ → Char
  | 0 => '0'
  | 1 => '1'
  | 2 => '2'
  | 3 => '3'
  | 4 => '4'
  | 5 => '5'
  | 6 => '6'
  | 7 => '7'
  | 8 => '8'
  | _ => '9'

/-- Decimal digit characters of a natural number, most significant first. -/
def natDecChars (n : ℕ) : List Char :=
  if _h : n < 10 then [digitChar n]
  else natDecChars (n / 10) ++ [digitChar (n % 10)]
termination_by n
decreasing_by exact Nat.div_lt_self (by omega) (by omega)

/-- Decimal string of an integer. -/
def intDecString (i : ℤ) : String :=
  if i < 0 then ⟨'-' :: natDecChars i.natAbs⟩ else ⟨natDecChars i.natAbs⟩

/-- toFixed(1) on a non-negative rational: the integer n nearest to 10·q
(ties toward the larger n, per the ECMAScript algorithm), printed with one
digit after the decimal point. -/
def toFixed1Abs (q : ℚ) : String :=
  let n := (Int.floor (10 * q + 1/2)).toNat
  ⟨natDecChars (n / 10) ++ '.' :: natDecChars (n % 10)⟩

/-- toFixed(1) on a rational (ECMAScript splits off the sign first). -/
def toFixed1 (q : ℚ) : String :=
  if q < 0 then "-" ++ toFixed1Abs (-q) else toFixed1Abs q

/-- toFixed(1) on a JS number ("Infinity" and "NaN" print as such). -/
def toFixed1Js : JsNum → String
  | .num q => toFixed1 q
  | .posInf => "Infinity"
  | .negInf => "-Infinity"
  | .nan => "NaN"

/-- Default value formatter, modelling the source default
(value) => value.toString().  Exact for integral values, which are the
only values this development ever formats; a non-integral JS double would
print its shortest round-tripping decimal form, rendered here as a
fraction. -/
def jsNumToString (q : ℚ) : String :=
  if q.den = 1 then intDecString q.num
  else intDecString q.num ++ "/" ++ intDecString (q.den : ℤ)

/-! ## JS string helpers -/

/-- String.prototype.replace with a plain-string pattern replaces only the
first occurrence; the empty pattern matches at position 0. -/
def listReplaceFirst : List Char → List Char → List Char → List Char
  | [], tgt, rep => match tgt with | [] => rep | _ => []
  | c :: rest, tgt, rep =>
      if tgt.isPrefixOf (c :: rest) then rep ++ (c :: rest).drop tgt.length
      else c :: listReplaceFirst rest tgt rep

/-- First-occurrence string replacement, as JS replace with a string
pattern. -/
def replaceFirst (s tgt rep : String) : String :=
  ⟨listReplaceFirst s.data tgt.data rep.data⟩

/-- utils.ts repeat: Array(n).join(c) yields n - 1 copies of the
single-character separator (and the empty string for n = 0). -/
def jsRepeat (n : ℕ) (c : Char) : List Char := List.replicate (n - 1) c

/-- String.prototype.includes for a plain-string needle. -/
def listContainsSeq : List Char → List Char → Bool
  | [], tgt => tgt.isEmpty
  | l@(_ :: rest), tgt => tgt.isPrefixOf l || listContainsSeq rest tgt

/-! ## Progress snapshot -/

/-- The Progress record of types.ts.  eta is the one field that JS
division by zero can drive to Infinity or NaN. -/
structure Progress where
  percent : ℚ
  current : ℚ
  total : ℚ
  remaining : ℚ
  eta : JsNum
  runtime : ℚ
  speed : ℚ
deriving DecidableEq, Repr

/-! ## Terminal environment and event traces -/

/-- The output stream collaborator: interactivity, presence of the
clearLine capability, live column count, and the platform flag the
renderer consults. -/
structure Env where
  isTTY : Bool
  hasClearLine : Bool
  columns : ℤ
  isWindows : Bool
deriving DecidableEq, Repr

/-- An observable side effect of the ProgressBar: a stream write, a cursor
or line-clear control, or the invocation of the onComplete callback. -/
inductive Ev where
  | write (s : String)
  | cursorTo (line : Option ℤ)
  | clearLine (dir : ℤ)
  | onComplete
deriving DecidableEq, Repr

/-! ## ProgressBar state -/

/-- The private fields of the ProgressBar class. -/
structure BarState where
  format : String
  width? : Option ℤ
  minWidth : ℤ
  interval : ℚ
  clear : Bool
  completeChar : Char
  incompleteChar : Char
  line : Option ℤ
  formatValue : ℚ → String
  tokens : Option (List (String × String))
  lastDraw : String
  completed : Bool
  total? : Option ℚ
  prevTime : Option ℚ
  startTime : ℚ
  endTime : ℚ
  progress : Progress

/-- Constructor options (each optional, as in ProgressBarOptions).  total
and interval are raw JS values so that the constructor's validation can be
stated; completeChar and incompleteChar stand for one-character strings
(getChar keeps only the first character of a longer string). -/
structure BarOptions where
  format : Option String
  total : Option JsValue
  current : Option ℚ
  width : Option ℤ
  minWidth : Option ℤ
  interval : Option JsValue
  clear : Option Bool
  completeChar : Option Char
  incompleteChar : Option Char
  line : Option ℤ
  formatValue : Option (ℚ → String)

/-- The constructor's total validation:
!isNumber(total) || !isFinite(total) || total <= 0. -/
def totalValueInvalid (v : JsValue) : Bool :=
  !(jsvIsNumber v) || !(jsvIsFinite v) || jsvLeZero v

/-- The constructor's interval validation:
!isNumber(interval) || !isFinite(interval) || interval < 0. -/
def intervalValueInvalid (v : JsValue) : Bool :=
  !(jsvIsNumber v) || !(jsvIsFinite v) || jsvLtZero v

/-- The state the constructor builds once every validation has passed. -/
def initBarState (o : BarOptions) : BarState :=
  let total? := match o.total with | some (.num (.num q)) => some q | _ => none
  let fmt0 := o.format.getD "{bar} {percent}"
  { format := if listContainsSeq fmt0.data "{bar}".data then fmt0 else "{bar} " ++ fmt0
    width? := o.width
    minWidth := max (match o.minWidth with | some m => m | none => 20) 20
    interval := match o.interval with | some (.num (.num q)) => max q 0 | _ => 0
    clear := o.clear.getD false
    completeChar := o.completeChar.getD '█'
    incompleteChar := o.incompleteChar.getD '░'
    line := o.line
    formatValue := o.formatValue.getD jsNumToString
    tokens := some []
    lastDraw := ""
    completed := false
    total? := total?
    prevTime := none
    startTime := 0
    endTime := 0
    progress :=
      { percent := 0
        current := o.current.getD 0
        total := total?.getD 0
        remaining := 0
        eta := .num 0
        runtime := 0
        speed := 0 } }

/-- The ProgressBar constructor: interval, total and line are validated in
source order, each failure throwing before the object exists. -/
def mkBar (o : BarOptions) : Except String BarState :=
  if (match o.interval with | some v => intervalValueInvalid v | none => false) then
    .error "interval must be a number >= 0"
  else if (match o.total with | some v => totalValueInvalid v | none => false) then
    .error "total must be a number > 0"
  else if (match o.line with | some l => decide (l < 0) | none => false) then
    .error "line must be >= 0"
  else .ok (initBarState o)

/-- The total setter: the throw happens before either assignment, so a
rejected value leaves the state untouched (returned unchanged, paired with
the error message). -/
def BarState.setTotal (s : BarState) (v : JsValue) : BarState × Option String :=
  if totalValueInvalid v then
    (s, some "total value must be a finite positive number")
  else
    ({ s with total? := some (jsvToRat v)
              progress := { s.progress with total := jsvToRat v } }, none)

/-- ProgressBar.#update: recompute runtime always; percent, remaining and
(once runtime is positive) speed and eta only when #total is a number; the
completed latch is set once current reaches #progress.total. -/
def BarState.update (s : BarState) : BarState :=
  let current := s.progress.current
  let runtime := (s.endTime - s.startTime) / 1000
  let p1 := { s.progress with runtime := roundQ runtime 3 }
  let p2 :=
    match s.total? with
    | some total =>
        let pa := { p1 with percent := roundQ (current / total * 100) 3
                            remaining := total - current }
        if 0 < runtime then
          { pa with speed := roundQ (current / runtime) 3
                    eta := jsRound3 (jsDivQ (total - current) (current / runtime)) }
        else pa
    | none => p1
  let completed := if p2.total ≤ current then true else s.completed
  { s with progress := p2, completed := completed }

/-- ProgressBar.#complete: fires whenever the completed latch is set —
clear the line (when the stream can) or write a newline, then invoke the
onComplete callback.  Nothing records that it already fired. -/
def BarState.completeStep (env : Env) (s : BarState) : List Ev :=
  if s.completed = false then []
  else if s.clear then
    (if env.hasClearLine then [Ev.clearLine (-1), Ev.cursorTo s.line] else [])
      ++ [Ev.onComplete]
  else [Ev.write "\n", Ev.onComplete]

/-! ## Renderer -/

/-- ProgressBar.#render lines 277-283: substitute the built-in tokens,
each replaced at its first occurrence; eta is divided by 1000 before
toFixed(1). -/
def builtinSubst (s : BarState) : String :=
  replaceFirst (replaceFirst (replaceFirst (replaceFirst (replaceFirst (replaceFirst
    s.format
    "{current}" (s.formatValue s.progress.current))
    "{total}" (s.formatValue s.progress.total))
    "{elapsed}" (toFixed1 s.progress.runtime))
    "{eta}" (toFixed1Js (jsNumDivPos s.progress.eta 1000)))
    "{percent}" (toFixed1 s.progress.percent ++ "%"))
    "{speed}" (s.formatValue (roundQ s.progress.speed 2))

/-- ProgressBar.#render lines 285-287: replace each custom token keyed as
[name]. -/
def customSubst (s : BarState) (out : String) : String :=
  match s.tokens with
  | none => out
  | some ts => ts.foldl (fun acc kv => replaceFirst acc ("[" ++ kv.1 ++ "]") kv.2) out

/-- The frame after every token substitution, before bar sizing. -/
def frameTokens (s : BarState) : String := customSubst s (builtinSubst s)

/-- The frame with the bar token removed, whose length is compared to the
column count. -/
def nonbarStr (s : BarState) : String := replaceFirst (frameTokens s) "{bar}" ""

/-- Available bar space: columns minus non-bar content, one column
reserved on Windows. -/
def barAvail (env : Env) (s : BarState) : ℤ :=
  let a := max 0 (env.columns - (nonbarStr s).data.length)
  if env.isWindows && decide (1 ≤ a) then a - 1 else a

/-- current / total, or 0 for an unset (zero) total. -/
def barFrac (s : BarState) : ℚ :=
  if s.progress.total = 0 then 0 else s.progress.current / s.progress.total

/-- The minimum width, lowered to the available space when it exceeds it. -/
def barMinW (env : Env) (s : BarState) : ℤ :=
  if barAvail env s < s.minWidth then barAvail env s else s.minWidth

/-- clamp(#width ?? Infinity, minWidth, availableSpace). -/
def barWidth (env : Env) (s : BarState) : ℤ :=
  match s.width? with
  | some w => min (max w (barMinW env s)) (barAvail env s)
  | none => barAvail env s

/-- completeLength = Math.round(width * ratio). -/
def barFill (env : Env) (s : BarState) : ℤ :=
  jsRoundInt ((barWidth env s : ℚ) * barFrac s)

/-- ProgressBar.#render lines 303-307: the bar glyphs.  repeat produces
one copy fewer than its argument; slice(0,-1) plus the complete character
re-attaches the head glyph. -/
def barSection (cc ic : Char) (width fill : ℤ) : List Char :=
  let incomplete := jsRepeat (max 0 (width - fill + 1)).toNat ic
  let complete := jsRepeat (max 0 (fill + 1)).toNat cc
  let complete := if 0 < fill then complete.dropLast ++ [cc] else complete
  complete ++ incomplete

/-- The full frame string ProgressBar.#render composes: bar inserted when
the columns exceed the non-bar content, otherwise the degraded non-bar
content, truncated when it overflows. -/
def renderFrame (env : Env) (s : BarState) : String :=
  let output := frameTokens s
  let nonbar := nonbarStr s
  if ((nonbar.data.length : ℤ) < env.columns) then
    replaceFirst output "{bar}" ⟨barSection s.completeChar s.incompleteChar (barWidth env s) (barFill env s)⟩
  else if ((env.columns : ℤ) = nonbar.data.length) then nonbar
  else ⟨nonbar.data.take (max 0 (env.columns - 1)).toNat⟩

/-- ProgressBar.#render: nothing on a non-interactive stream; otherwise
draw the frame only when it differs from the last drawn one. -/
def BarState.render (s : BarState) (env : Env) : BarState × List Ev :=
  if env.isTTY = false then (s, [])
  else
    let out := renderFrame env s
    if s.lastDraw ≠ out then
      ({ s with lastDraw := out }, [Ev.cursorTo s.line, Ev.write out, Ev.clearLine 1])
    else (s, [])

/-! ## tick -/

/-- ProgressBar.tick: set current (current ?? 1) and the custom tokens,
record the call time (the first call fixes the start time), recompute the
snapshot, and when the throttle interval has elapsed render and run the
completion step. -/
def BarState.tick (s : BarState) (env : Env) (now : ℚ) (current? : Option ℚ)
    (toks : Option (List (String × String))) : BarState × List Ev :=
  let prev := match s.prevTime with | none => now | some p => p
  let s1 := { s with
    progress := { s.progress with current := current?.getD 1 }
    tokens := toks
    endTime := now
    startTime := match s.prevTime with | none => now | some _ => s.startTime
    prevTime := some prev }
  let s2 := s1.update
  if s.interval ≤ now - prev then
    let s3 := { s2 with prevTime := some now }
    let r := s3.render env
    (r.1, r.2 ++ BarState.completeStep env r.1)
  else (s2, [])

/-- Whether a tick arriving at the given time passes the throttle gate
(diff = now - #prevTime, with #prevTime just initialised to now on the
first call). -/
def tickGate (s : BarState) (now : ℚ) : Bool :=
  decide (s.interval ≤ now - (match s.prevTime with | none => now | some p => p))

/-- One tick call of a driver sequence. -/
structure TickCall where
  now : ℚ
  current : Option ℚ
  tokens : Option (List (String × String))

/-- Run a sequence of tick calls, concatenating the emitted events. -/
def runTicks (env : Env) : List TickCall → BarState → BarState × List Ev
  | [], s => (s, [])
  | c :: cs, s =>
      let r1 := s.tick env c.now c.current c.tokens
      let r2 := runTicks env cs r1.1
      (r2.1, r1.2 ++ r2.2)

/-! ## ProgressStream -/

/-- Observable signals of the ProgressStream: the forwarded end-of-data
push, the total events (emit('total') and the onTotal callback) and the
progress notifications (the onProgress callback and emit('progress')). -/
inductive SEv where
  | pushNull
  | emitTotal (q : ℚ)
  | onTotal (q : ℚ)
  | emitProgress (p : Progress)
  | onProgress (p : Progress)
deriving DecidableEq, Repr

/-- The private fields of ProgressStream that its update machinery uses. -/
structure StreamState where
  interval : ℚ
  prevTime : Option ℚ
  startTime : ℚ
  endTime : ℚ
  total? : Option ℚ
  progress : Progress
deriving DecidableEq, Repr

/-- The ProgressStream total setter: same validation as the bar's, then
both assignments and the total notifications. -/
def streamSetTotal (st : StreamState) (v : JsValue) : StreamState × List SEv × Option String :=
  if totalValueInvalid v then
    (st, [], some "total value must be a finite positive number")
  else
    ({ st with total? := some (jsvToRat v)
               progress := { st.progress with total := jsvToRat v } },
     [SEv.emitTotal (jsvToRat v), SEv.onTotal (jsvToRat v)], none)

/-- ProgressStream.#update: identical metric recomputation to the bar's,
without the completed latch. -/
def streamUpdate (st : StreamState) : StreamState :=
  let current := st.progress.current
  let runtime := (st.endTime - st.startTime) / 1000
  let p1 := { st.progress with runtime := roundQ runtime 3 }
  let p2 :=
    match st.total? with
    | some total =>
        let pa := { p1 with percent := roundQ (current / total * 100) 3
                            remaining := total - current }
        if 0 < runtime then
          { pa with speed := roundQ (current / runtime) 3
                    eta := jsRound3 (jsDivQ (total - current) (current / runtime)) }
        else pa
    | none => p1
  { st with progress := p2 }

/-- ProgressStream.#emit: the onProgress callback then emit('progress'),
both with a copy of the snapshot. -/
def streamEmit (st : StreamState) : List SEv :=
  [SEv.onProgress st.progress, SEv.emitProgress st.progress]

/-- ProgressStream._flush: record the end time and forward end-of-data;
with a positive interval, force total to the bytes actually seen — through
the validating total setter — then update and emit one final notification.
The error, when the setter rejects, happens before any notification. -/
def streamFlush (st : StreamState) (now : ℚ) : StreamState × List SEv × Option String :=
  let st1 := { st with endTime := now }
  if 0 < st1.interval then
    let r := streamSetTotal st1 (.num (.num st1.progress.current))
    match r.2.2 with
    | some msg => (r.1, SEv.pushNull :: r.2.1, some msg)
    | none =>
        let st2 := streamUpdate r.1
        (st2, SEv.pushNull :: r.2.1 ++ streamEmit st2, none)
  else (st1, [SEv.pushNull], none)

/-! ## Speedometer -/

/-- The closure state of utils.ts speedometer: the ring buffer of
cumulative counts, its write pointer, the timer-advanced tick counter, the
tick of the previous call, the last computed rate, the ended latch, and
whether the background interval timer is still registered. -/
structure SpeedoState where
  size : ℕ
  buffer : List ℚ
  pointer : ℕ
  tick : ℕ
  last : ℕ
  lastSpeed : ℚ
  ended : Bool
  timerActive : Bool
deriving DecidableEq, Repr

/-- speedometer(seconds): seconds || 5, size = RESOLUTION * seconds,
buffer [0], pointer 1, tick 1, last = (tick - 1) & MAX_TICK, and the
background timer started. -/
def speedometerInit (seconds : ℕ) : SpeedoState :=
  let s := if seconds = 0 then 5 else seconds
  { size := 4 * s
    buffer := [0]
    pointer := 1
    tick := 1
    last := 0
    lastSpeed := 0
    ended := false
    timerActive := true }

/-- JS array read; out-of-range reads are never reached from the
speedometer's reachable states. -/
def bufGet (l : List ℚ) (i : ℕ) : ℚ := l.getD i 0

/-- JS array write, extending the array when writing one slot past its
end (the only growth the speedometer performs). -/
def bufSet (l : List ℚ) (i : ℕ) (v : ℚ) : List ℚ :=
  if i < l.length then l.set i v
  else l ++ List.replicate (i - l.length) 0 ++ [v]

/-- The background interval callback: tick = (tick + 1) & MAX_TICK, live
only while the timer has not been cleared. -/
def speedoTimerTick (s : SpeedoState) : SpeedoState :=
  if s.timerActive then { s with tick := (s.tick + 1) % 65536 } else s

/-- The while (dist--) loop: wrap the pointer, carry the previous slot's
cumulative value forward, advance. -/
def shiftBuf : ℕ → List ℚ → ℕ → ℕ → List ℚ × ℕ
  | 0, buf, ptr, _ => (buf, ptr)
  | d + 1, buf, ptr, size =>
      let ptr := if ptr = size then 0 else ptr
      let buf := bufSet buf ptr (bufGet buf (if ptr = 0 then size - 1 else ptr - 1))
      shiftBuf d buf (ptr + 1) size

/-- One call of the returned rate function.  An ended estimator returns
the frozen last rate at once; a call without a delta ends it (clearing the
timer and the buffer); otherwise the elapsed ticks (saturated at size) are
carried through the ring, the delta added when non-zero (JS truthiness),
and the windowed rate computed. -/
def speedoCall (d : Option ℚ) (s : SpeedoState) : ℚ × SpeedoState :=
  if s.ended then (s.lastSpeed, s)
  else
    match d with
    | none => (s.lastSpeed, { s with ended := true, timerActive := false, buffer := [] })
    | some delta =>
        let dist0 := (s.tick + 65536 - s.last) % 65536
        let dist := if s.size < dist0 then s.size else dist0
        let r := shiftBuf dist s.buffer s.pointer s.size
        let buf := r.1
        let ptr := r.2
        let buf := if delta ≠ 0 then bufSet buf (ptr - 1) (bufGet buf (ptr - 1) + delta) else buf
        let top := bufGet buf (ptr - 1)
        let btm := if buf.length < s.size then 0 else bufGet buf (if ptr = s.size then 0 else ptr)
        let sp := if buf.length < 4 then top else ((top - btm) * 4) / (buf.length : ℚ)
        (sp, { s with buffer := buf, pointer := ptr, last := s.tick, lastSpeed := sp })

/-- An interleaving of background timer ticks and rate-function calls. -/
inductive SpeedoOp where
  | timer
  | call (d : Option ℚ)
deriving DecidableEq, Repr

/-- Run an operation sequence, recording every value the rate function
returns. -/
def speedoRun : List SpeedoOp → SpeedoState → SpeedoState × List ℚ
  | [], s => (s, [])
  | .timer :: ops, s => speedoRun ops (speedoTimerTick s)
  | .call d :: ops, s =>
      let r := speedoCall d s
      let rest := speedoRun ops r.2
      (rest.1, r.1 :: rest.2)

/-! ## Trace observations -/

/-- How many times a trace invokes the onComplete callback. -/
def countOnComplete : List Ev → ℕ
  | [] => 0
  | Ev.onComplete :: rest => countOnComplete rest + 1
  | _ :: rest => countOnComplete rest

/-! ## Concrete states for the closed scenarios -/

/-- A non-interactive output stream (a redirect): not a TTY and without
the clearLine capability, as a non-TTY process.stderr. -/
def demoEnvNoTTY : Env :=
  { isTTY := false, hasClearLine := false, columns := 80, isWindows := false }

/-- An interactive 80-column terminal on a non-Windows platform. -/
def demoEnvTTY : Env :=
  { isTTY := true, hasClearLine := true, columns := 80, isWindows := false }

/-- Options shared by the concrete bars: interval 0 (every tick passes the
throttle gate), everything else defaulted. -/
def optsWithTotal (t : Option JsValue) : BarOptions :=
  { format := none, total := t, current := none, width := none, minWidth := none
    interval := some (.num (.num 0)), clear := none, completeChar := none
    incompleteChar := none, line := none, formatValue := none }

/-- A bar with total 1. -/
def barTotal1 : BarState := initBarState (optsWithTotal (some (.num (.num 1))))

/-- A bar with total 3. -/
def barTotal3 : BarState := initBarState (optsWithTotal (some (.num (.num 3))))

/-- A bar with total 10. -/
def barTotal10 : BarState := initBarState (optsWithTotal (some (.num (.num 10))))

/-- A bar constructed without a total. -/
def barNoTotal : BarState := initBarState (optsWithTotal none)

/-- Options whose total is the invalid -5. -/
def optsInvalidTotal : BarOptions := optsWithTotal (some (.num (.num (-5))))

/-- An initial zeroed snapshot. -/
def progress0 : Progress :=
  { percent := 0, current := 0, total := 0, remaining := 0
    eta := .num 0, runtime := 0, speed := 0 }

/-- A plain valid bar used to probe the total setter. -/
def demoBar : BarState := initBarState (optsWithTotal (some (.num (.num 7))))

/-- A bar mid-run at current 50 of total 100 with configured width 40, as
in the deterministic bar-geometry check. -/
def barHalf : BarState :=
  { format := "{bar} {percent}", width? := some 40, minWidth := 20, interval := 0
    clear := false, completeChar := '█', incompleteChar := '░', line := none
    formatValue := jsNumToString, tokens := none, lastDraw := "", completed := false
    total? := some 100, prevTime := some 0, startTime := 0, endTime := 0
    progress := { progress0 with percent := 50, current := 50, total := 100 } }

/-- A bar about to recompute its snapshot: total 10, current 2, one second
elapsed, format showing only the eta token. -/
def barEta : BarState :=
  { format := "{bar} {eta}", width? := none, minWidth := 20, interval := 0
    clear := false, completeChar := '█', incompleteChar := '░', line := none
    formatValue := jsNumToString, tokens := none, lastDraw := "", completed := false
    total? := some 10, prevTime := some 0, startTime := 0, endTime := 1000
    progress := { progress0 with current := 2, total := 10 } }

/-- A bar about to recompute its snapshot with current still 0 after one
second: the computed speed is 0. -/
def barStalled : BarState :=
  { format := "{bar} {percent}", width? := none, minWidth := 20, interval := 0
    clear := false, completeChar := '█', incompleteChar := '░', line := none
    formatValue := jsNumToString, tokens := none, lastDraw := "", completed := false
    total? := some 10, prevTime := some 0, startTime := 0, endTime := 1000
    progress := { progress0 with total := 10 } }

/-- A ProgressStream with interval 500 that has seen no bytes. -/
def streamEmpty : StreamState :=
  { interval := 500, prevTime := none, startTime := 0, endTime := 0
    total? := none, progress := progress0 }

/-- A ProgressStream without a total, five bytes in, one second elapsed. -/
def streamNoTotal : StreamState :=
  { interval := 0, prevTime := some 0, startTime := 0, endTime := 1000
    total? := none, progress := { progress0 with current := 5 } }

/-! # Lemmas about the embedded operations -/

theorem countOnComplete_append (a b : List Ev) :
    countOnComplete (a ++ b) = countOnComplete a + countOnComplete b := by
  induction a with
  | nil => simp [countOnComplete]
  | cons e rest ih =>
      cases e <;> simp [countOnComplete, ih] <;> omega

theorem render_fst_completed (s : BarState) (env : Env) :
    (s.render env).1.completed = s.completed := by
  unfold BarState.render
  split
  · rfl
  · dsimp only
    split <;> rfl

theorem render_fst_progress (s : BarState) (env : Env) :
    (s.render env).1.progress = s.progress := by
  unfold BarState.render
  split
  · rfl
  · dsimp only
    split <;> rfl

theorem render_fst_total (s : BarState) (env : Env) :
    (s.render env).1.total? = s.total? := by
  unfold BarState.render
  split
  · rfl
  · dsimp only
    split <;> rfl

theorem render_snd_countOnComplete (s : BarState) (env : Env) :
    countOnComplete (s.render env).2 = 0 := by
  unfold BarState.render
  split
  · rfl
  · dsimp only
    split <;> rfl

theorem render_of_notty (s : BarState) (env : Env) (h : env.isTTY = false) :
    s.render env = (s, []) := by
  unfold BarState.render
  rw [h]
  rfl

theorem completeStep_countOnComplete (env : Env) (s : BarState) :
    countOnComplete (BarState.completeStep env s) = if s.completed then 1 else 0 := by
  unfold BarState.completeStep
  rcases hc : s.completed <;> rcases s.clear <;> rcases env.hasClearLine <;>
    simp [countOnComplete]

theorem update_progress_current (s : BarState) :
    (BarState.update s).progress.current = s.progress.current := by
  unfold BarState.update
  rcases s.total? with _ | t
  · rfl
  · dsimp only
    split <;> rfl

theorem update_total (s : BarState) :
    (BarState.update s).total? = s.total? := by
  unfold BarState.update
  rfl

theorem tick_countOnComplete (env : Env) (s : BarState) (now : ℚ) (c : Option ℚ)
    (tk : Option (List (String × String))) :
    countOnComplete (s.tick env now c tk).2
      = if tickGate s now = true ∧ (s.tick env now c tk).1.completed = true then 1 else 0 := by
  unfold BarState.tick tickGate
  dsimp only
  split
  · rename_i h
    rw [countOnComplete_append, render_snd_countOnComplete, completeStep_countOnComplete,
      render_fst_completed]
    rw [decide_eq_true h]
    dsimp only
    split
    · rename_i hcomp
      simp [hcomp]
    · rename_i hcomp
      simp [hcomp]
  · rename_i h
    rw [decide_eq_false h]
    simp [countOnComplete]

/-! # Claim C1 -/

/-- C1: counterexample.  A bar with total 1 and interval 0, ticked twice
to current 1 (current stays at or above total), runs the completion
side-effect and the onComplete callback on both ticks: twice over the
sequence, not at most once. -/
theorem c1_counterexample :
    countOnComplete (runTicks demoEnvNoTTY
        [⟨0, some 1, none⟩, ⟨1000, some 1, none⟩] barTotal1).2 = 2 ∧
    ¬ countOnComplete (runTicks demoEnvNoTTY
        [⟨0, some 1, none⟩, ⟨1000, some 1, none⟩] barTotal1).2 ≤ 1 := by
  have h : countOnComplete (runTicks demoEnvNoTTY
      [⟨0, some 1, none⟩, ⟨1000, some 1, none⟩] barTotal1).2 = 2 := by
    norm_num [runTicks, BarState.tick, BarState.update, BarState.render,
      BarState.completeStep, tickGate, countOnComplete, demoEnvNoTTY, barTotal1,
      initBarState, optsWithTotal, roundQ, jsRoundQ, jsRound3, jsDivQ]
  exact ⟨h, by rw [h]; omega⟩

/-- C1 (amended): the completion side-effect (clear or trailing newline,
then the onComplete callback) executes exactly once on each tick call that
passes the throttle gate while the bar is completed — so over a sequence
it fires once per such call, which can be more than once in total. -/
theorem c1_complete_per_gated_tick (env : Env) (s : BarState) (now : ℚ) (c : Option ℚ)
    (tk : Option (List (String × String))) :
    countOnComplete (s.tick env now c tk).2
      = if tickGate s now = true ∧ (s.tick env now c tk).1.completed = true then 1 else 0 :=
  tick_countOnComplete env s now c tk

/-! # Claim C2 -/

/-- C2: at the failing input.  tick() with the current argument omitted
executes current = current ?? 1: it stores the constant 1.  In every
state the post-tick current is 1, and after two argument-less ticks of a
fresh bar with total 3 the current is still 1, where increment-by-one
semantics would give 2. -/
theorem c2_tick_sets_constant_one :
    (∀ (env : Env) (s : BarState) (now : ℚ) (tk : Option (List (String × String))),
      (s.tick env now none tk).1.progress.current = 1) ∧
    (runTicks demoEnvNoTTY [⟨0, none, none⟩, ⟨100, none, none⟩] barTotal3).1.progress.current = 1 ∧
    ¬ (runTicks demoEnvNoTTY [⟨0, none, none⟩, ⟨100, none, none⟩] barTotal3).1.progress.current
        = (0 : ℚ) + 2 := by
  have hrun : (runTicks demoEnvNoTTY [⟨0, none, none⟩, ⟨100, none, none⟩]
      barTotal3).1.progress.current = 1 := by
    norm_num [runTicks, BarState.tick, BarState.update, BarState.render,
      BarState.completeStep, tickGate, demoEnvNoTTY, barTotal3,
      initBarState, optsWithTotal, roundQ, jsRoundQ, jsRound3, jsDivQ]
  refine ⟨?_, hrun, by rw [hrun]; norm_num⟩
  intro env s now tk
  unfold BarState.tick
  dsimp only
  split
  · rw [render_fst_progress, update_progress_current]
    rfl
  · rw [update_progress_current]
    rfl

theorem tick_writes_newline (env : Env) (s : BarState) (now : ℚ) (c : Option ℚ)
    (tk : Option (List (String × String))) (hTTY : env.isTTY = false) :
    ∀ e ∈ (s.tick env now c tk).2, ∀ str, e = Ev.write str → str = "\n" := by
  unfold BarState.tick
  dsimp only
  split
  · rw [render_of_notty _ _ hTTY]
    dsimp only
    intro e he str hest
    subst hest
    rw [List.nil_append] at he
    unfold BarState.completeStep at he
    split at he
    · simp at he
    · split at he
      · rcases List.mem_append.mp he with h | h
        · split at h <;> simp at h
        · simp at h
      · simp at he
        exact he
  · intro e he
    simp at he

/-! # Claim C3 -/

/-- C3: counterexample.  With a non-interactive output destination, a run
from current 0 to current = total = 1 still writes: the completion step
writes the trailing newline (and fires onComplete) even though no frame
was rendered. -/
theorem c3_counterexample :
    (runTicks demoEnvNoTTY [⟨0, some 1, none⟩] barTotal1).2
        = [Ev.write "\n", Ev.onComplete] ∧
    Ev.write "\n" ∈ (runTicks demoEnvNoTTY [⟨0, some 1, none⟩] barTotal1).2 := by
  have h : (runTicks demoEnvNoTTY [⟨0, some 1, none⟩] barTotal1).2
      = [Ev.write "\n", Ev.onComplete] := by
    norm_num [runTicks, BarState.tick, BarState.update, BarState.render,
      BarState.completeStep, tickGate, demoEnvNoTTY, barTotal1,
      initBarState, optsWithTotal, roundQ, jsRoundQ, jsRound3, jsDivQ]
  exact ⟨h, by rw [h]; simp⟩

/-- C3 (amended): with a non-interactive output destination no frame is
ever written across any run of tick calls — the renderer returns without
writing — but the completion side-effect still writes its trailing
newline, so the only write events a run can emit carry exactly the string
newline. -/
theorem c3_no_frames_only_newline (env : Env) (calls : List TickCall) (s : BarState)
    (hTTY : env.isTTY = false) :
    ∀ e ∈ (runTicks env calls s).2, ∀ str, e = Ev.write str → str = "\n" := by
  induction calls generalizing s with
  | nil =>
      intro e he
      simp [runTicks] at he
  | cons cl rest ih =>
      intro e he str hest
      rw [runTicks] at he
      dsimp only at he
      rcases List.mem_append.mp he with h | h
      · exact tick_writes_newline env s cl.now cl.current cl.tokens hTTY e h str hest
      · exact ih _ e h str hest

/-- C3 (amended) witness: on the concrete non-TTY run that reaches its
total, the newline write is in the trace and the theorem applies to it. -/
theorem c3_no_frames_only_newline_witness :
    demoEnvNoTTY.isTTY = false ∧
    Ev.write "\n" ∈ (runTicks demoEnvNoTTY [⟨0, some 1, none⟩] barTotal1).2 ∧
    "\n" = "\n" := by
  have hmem : Ev.write "\n" ∈ (runTicks demoEnvNoTTY [⟨0, some 1, none⟩] barTotal1).2 := by
    have h : (runTicks demoEnvNoTTY [⟨0, some 1, none⟩] barTotal1).2
        = [Ev.write "\n", Ev.onComplete] := by
      norm_num [runTicks, BarState.tick, BarState.update, BarState.render,
        BarState.completeStep, tickGate, demoEnvNoTTY, barTotal1,
        initBarState, optsWithTotal, roundQ, jsRoundQ, jsRound3, jsDivQ]
    rw [h]; simp
  exact ⟨rfl, hmem,
    c3_no_frames_only_newline demoEnvNoTTY [⟨0, some 1, none⟩] barTotal1 rfl
      (Ev.write "\n") hmem "\n" rfl⟩

theorem update_total_none (s : BarState) (h : s.total? = none) :
    (BarState.update s).progress
      = { s.progress with runtime := roundQ ((s.endTime - s.startTime) / 1000) 3 } := by
  unfold BarState.update
  rw [h]

theorem streamUpdate_total_none (st : StreamState) (h : st.total? = none) :
    (streamUpdate st).progress
      = { st.progress with runtime := roundQ ((st.endTime - st.startTime) / 1000) 3 } := by
  unfold streamUpdate
  rw [h]

theorem tick_total_none (env : Env) (s : BarState) (now : ℚ) (c : Option ℚ)
    (tk : Option (List (String × String))) (h : s.total? = none) :
    (s.tick env now c tk).1.total? = none ∧
    (s.tick env now c tk).1.progress.percent = s.progress.percent ∧
    (s.tick env now c tk).1.progress.remaining = s.progress.remaining ∧
    (s.tick env now c tk).1.progress.eta = s.progress.eta ∧
    (s.tick env now c tk).1.progress.speed = s.progress.speed := by
  unfold BarState.tick
  dsimp only
  split
  · constructor
    · rw [render_fst_total, update_total]
      exact h
    · rw [render_fst_progress, update_total_none]
      exact ⟨rfl, rfl, rfl, rfl⟩
      exact h
  · constructor
    · rw [update_total]
      exact h
    · rw [update_total_none]
      exact ⟨rfl, rfl, rfl, rfl⟩
      exact h

/-! # Claim C4 -/

/-- C4: counterexample.  A tracker whose total is unset, ticked to
current 5 at time 0 and again at time 1000: the elapsed time is a full
positive second, yet the recomputed snapshot's speed is 0, not
current / elapsed = 5 — the speed computation sits inside the branch that
requires a set total. -/
theorem c4_counterexample :
    (runTicks demoEnvNoTTY [⟨0, some 5, none⟩, ⟨1000, some 5, none⟩]
        barNoTotal).1.progress.runtime = 1 ∧
    (runTicks demoEnvNoTTY [⟨0, some 5, none⟩, ⟨1000, some 5, none⟩]
        barNoTotal).1.progress.current = 5 ∧
    (runTicks demoEnvNoTTY [⟨0, some 5, none⟩, ⟨1000, some 5, none⟩]
        barNoTotal).1.progress.speed = 0 ∧
    (0 : ℚ) ≠ 5 := by
  refine ⟨?_, ?_, ?_, by norm_num⟩ <;>
    norm_num [runTicks, BarState.tick, BarState.update, BarState.render,
      BarState.completeStep, tickGate, demoEnvNoTTY, barNoTotal,
      initBarState, optsWithTotal, roundQ, jsRoundQ, jsRound3, jsDivQ]

/-- C4 (amended): while total is unset, a metrics update recomputes only
the runtime: percent, remaining and eta stay at their initial 0, and speed
is not computed either — it also stays 0, no matter how much time has
elapsed.  The same holds for the ProgressStream update. -/
theorem c4_unset_total_only_runtime (env : Env) (calls : List TickCall) (s : BarState)
    (st : StreamState)
    (h0 : s.total? = none) (h1 : s.progress.percent = 0) (h2 : s.progress.remaining = 0)
    (h3 : s.progress.eta = JsNum.num 0) (h4 : s.progress.speed = 0)
    (hst : st.total? = none) :
    ((runTicks env calls s).1.progress.percent = 0 ∧
     (runTicks env calls s).1.progress.remaining = 0 ∧
     (runTicks env calls s).1.progress.eta = JsNum.num 0 ∧
     (runTicks env calls s).1.progress.speed = 0) ∧
    (streamUpdate st).progress
      = { st.progress with runtime := roundQ ((st.endTime - st.startTime) / 1000) 3 } := by
  refine ⟨?_, streamUpdate_total_none st hst⟩
  clear hst
  revert h0 h1 h2 h3 h4
  induction calls generalizing s with
  | nil =>
      intro h0 h1 h2 h3 h4
      simpa [runTicks] using ⟨h1, h2, h3, h4⟩
  | cons cl rest ih =>
      intro h0 h1 h2 h3 h4
      rw [runTicks]
      dsimp only
      have ht := tick_total_none env s cl.now cl.current cl.tokens h0
      exact ih _ ht.1 (by rw [ht.2.1]; exact h1) (by rw [ht.2.2.1]; exact h2)
        (by rw [ht.2.2.2.1]; exact h3) (by rw [ht.2.2.2.2]; exact h4)

/-- C4 (amended) witness: the concrete unset-total bar run and the
concrete unset-total stream satisfy the hypotheses, and the theorem
applies to them. -/
theorem c4_unset_total_only_runtime_witness :
    barNoTotal.total? = none ∧ streamNoTotal.total? = none ∧
    (((runTicks demoEnvNoTTY [⟨0, some 5, none⟩, ⟨1000, some 5, none⟩]
        barNoTotal).1.progress.percent = 0 ∧
      (runTicks demoEnvNoTTY [⟨0, some 5, none⟩, ⟨1000, some 5, none⟩]
        barNoTotal).1.progress.remaining = 0 ∧
      (runTicks demoEnvNoTTY [⟨0, some 5, none⟩, ⟨1000, some 5, none⟩]
        barNoTotal).1.progress.eta = JsNum.num 0 ∧
      (runTicks demoEnvNoTTY [⟨0, some 5, none⟩, ⟨1000, some 5, none⟩]
        barNoTotal).1.progress.speed = 0) ∧
     (streamUpdate streamNoTotal).progress
       = { streamNoTotal.progress with
            runtime := roundQ ((streamNoTotal.endTime - streamNoTotal.startTime) / 1000) 3 }) :=
  ⟨rfl, rfl,
    c4_unset_total_only_runtime demoEnvNoTTY [⟨0, some 5, none⟩, ⟨1000, some 5, none⟩]
      barNoTotal streamNoTotal rfl rfl rfl rfl rfl rfl⟩

/-! # Claim C5 -/

/-- C5: counterexample.  A bar with total 10 ticked to current 0 at time
0 and again one second later: the computed speed is 0 and the snapshot's
eta becomes Infinity — remaining / speed is an unguarded JS division by
zero — rather than the claimed 0. -/
theorem c5_counterexample :
    (runTicks demoEnvNoTTY [⟨0, some 0, none⟩, ⟨1000, some 0, none⟩]
        barTotal10).1.progress.eta = JsNum.posInf ∧
    JsNum.posInf ≠ JsNum.num 0 := by
  refine ⟨?_, by simp⟩
  norm_num [runTicks, BarState.tick, BarState.update, BarState.render,
    BarState.completeStep, tickGate, demoEnvNoTTY, barTotal10,
    initBarState, optsWithTotal, roundQ, jsRoundQ, jsRound3, jsDivQ]

/-- C5 (amended): the eta computation has no zero-speed guard.  Whenever
the metrics update runs with a set positive total, positive elapsed time
and current 0 — so that the computed speed is 0 while remaining is
positive — the snapshot's eta is Infinity, not 0. -/
theorem c5_eta_infinity (s : BarState) (t : ℚ)
    (ht : s.total? = some t) (hr : 0 < (s.endTime - s.startTime) / 1000)
    (hc : s.progress.current = 0) (hpos : 0 < t) :
    (BarState.update s).progress.eta = JsNum.posInf := by
  unfold BarState.update
  rw [ht]
  dsimp only
  rw [if_pos hr]
  dsimp only
  rw [hc]
  simp [jsDivQ, jsRound3, hpos]

/-- C5 (amended) witness: the concrete stalled bar (total 10, current 0,
one second elapsed) satisfies the hypotheses and its updated eta is
Infinity. -/
theorem c5_eta_infinity_witness :
    barStalled.total? = some 10 ∧
    0 < (barStalled.endTime - barStalled.startTime) / 1000 ∧
    barStalled.progress.current = 0 ∧ (0 : ℚ) < 10 ∧
    (BarState.update barStalled).progress.eta = JsNum.posInf :=
  ⟨rfl, by norm_num [barStalled], rfl, by norm_num,
    c5_eta_infinity barStalled 10 rfl (by norm_num [barStalled]) rfl (by norm_num)⟩

/-! # Claim C6 -/

/-- C6: a non-numeric, non-finite or non-positive total is rejected
synchronously: the constructor fails (given its interval already passed
its own earlier check), and the total setter returns the error before
either assignment, leaving the state exactly as it was. -/
theorem c6_total_validation (o : BarOptions) (v w : JsValue) (s : BarState)
    (hi : (match o.interval with | some i => intervalValueInvalid i | none => false) = false)
    (ho : o.total = some v) (hv : totalValueInvalid v = true)
    (hw : totalValueInvalid w = true) :
    mkBar o = Except.error "total must be a number > 0" ∧
    BarState.setTotal s w = (s, some "total value must be a finite positive number") := by
  constructor
  · unfold mkBar
    rw [hi, ho]
    simp [hv]
  · unfold BarState.setTotal
    rw [if_pos hw]

/-- C6 witness: constructing with total -5 fails, and assigning -5
through the setter of a live bar errors with the state unchanged. -/
theorem c6_total_validation_witness :
    optsInvalidTotal.total = some (JsValue.num (JsNum.num (-5))) ∧
    totalValueInvalid (JsValue.num (JsNum.num (-5))) = true ∧
    mkBar optsInvalidTotal = Except.error "total must be a number > 0" ∧
    BarState.setTotal demoBar (JsValue.num (JsNum.num (-5)))
      = (demoBar, some "total value must be a finite positive number") := by
  have hv : totalValueInvalid (JsValue.num (JsNum.num (-5))) = true := by
    norm_num [totalValueInvalid, jsvIsNumber, jsvIsFinite, jsvLeZero]
  have hi : (match optsInvalidTotal.interval with
      | some i => intervalValueInvalid i | none => false) = false := by
    norm_num [optsInvalidTotal, optsWithTotal, intervalValueInvalid,
      jsvIsNumber, jsvIsFinite, jsvLtZero]
  have h := c6_total_validation optsInvalidTotal (JsValue.num (JsNum.num (-5)))
    (JsValue.num (JsNum.num (-5))) demoBar hi rfl hv hv
  exact ⟨rfl, hv, h.1, h.2⟩

/-! # Claim C10 -/

/-- C10: flushing a ProgressStream that was constructed with a positive
interval but transferred zero bytes throws: the forced total = current
assignment hits the setter's finite-positive validation with 0.  The
error happens before any progress notification — the emitted signals are
exactly the forwarded end-of-data, and the state only records the end
time. -/
theorem c10_flush_empty (st : StreamState) (now : ℚ)
    (h1 : 0 < st.interval) (h2 : st.progress.current = 0) :
    (streamFlush st now).2.2 = some "total value must be a finite positive number" ∧
    (streamFlush st now).2.1 = [SEv.pushNull] ∧
    (streamFlush st now).1 = { st with endTime := now } := by
  have key : streamFlush st now
      = ({ st with endTime := now }, [SEv.pushNull],
          some "total value must be a finite positive number") := by
    norm_num [streamFlush, streamSetTotal, h1, h2, totalValueInvalid,
      jsvIsNumber, jsvIsFinite, jsvLeZero]
  rw [key]
  exact ⟨rfl, rfl, rfl⟩

/-- C10 witness: the concrete empty stream with interval 500, flushed at
time 1000, errors without a progress notification. -/
theorem c10_flush_empty_witness :
    0 < streamEmpty.interval ∧ streamEmpty.progress.current = 0 ∧
    (streamFlush streamEmpty 1000).2.2
      = some "total value must be a finite positive number" ∧
    (streamFlush streamEmpty 1000).2.1 = [SEv.pushNull] := by
  have h := c10_flush_empty streamEmpty 1000 (by norm_num [streamEmpty]) rfl
  exact ⟨by norm_num [streamEmpty], rfl, h.1, h.2.1⟩

theorem speedoTimerTick_fields (s : SpeedoState) :
    (speedoTimerTick s).ended = s.ended ∧ (speedoTimerTick s).lastSpeed = s.lastSpeed ∧
    (speedoTimerTick s).timerActive = s.timerActive := by
  unfold speedoTimerTick
  split <;> exact ⟨rfl, rfl, rfl⟩

theorem speedoCall_of_ended (d : Option ℚ) (s : SpeedoState) (h : s.ended = true) :
    speedoCall d s = (s.lastSpeed, s) := by
  unfold speedoCall
  rw [if_pos h]

theorem speedoRun_ended (ops : List SpeedoOp) (s : SpeedoState) (h : s.ended = true) :
    (speedoRun ops s).1.ended = true ∧ (speedoRun ops s).1.lastSpeed = s.lastSpeed ∧
    (speedoRun ops s).1.timerActive = s.timerActive ∧
    ∀ r ∈ (speedoRun ops s).2, r = s.lastSpeed := by
  induction ops generalizing s with
  | nil =>
      refine ⟨h, rfl, rfl, ?_⟩
      intro r hr
      simp [speedoRun] at hr
  | cons op rest ih =>
      cases op with
      | timer =>
          rw [speedoRun]
          obtain ⟨f1, f2, f3⟩ := speedoTimerTick_fields s
          obtain ⟨a, b, c, d⟩ := ih (speedoTimerTick s) (by rw [f1]; exact h)
          exact ⟨a, by rw [b, f2], by rw [c, f3], fun r hr => by rw [d r hr, f2]⟩
      | call dlt =>
          rw [speedoRun]
          dsimp only
          rw [speedoCall_of_ended dlt s h]
          obtain ⟨a, b, c, d⟩ := ih s h
          refine ⟨a, b, c, ?_⟩
          intro r hr
          rcases List.mem_cons.mp hr with h' | h'
          · exact h'
          · exact d r h'

/-! # Claim C8 -/

/-- C8: once the terminating sentinel (a call with no delta) has run, the
speedometer is inert: the sentinel returns the last computed rate, stops
the background interval timer and drops the buffer, and from then on every
further call — across any interleaving of timer ticks and calls with any
deltas — returns that same frozen rate, with the ended latch never
resetting. -/
theorem c8_speedometer_freeze (s : SpeedoState) (ops : List SpeedoOp) (h : s.ended = false) :
    (speedoCall none s).1 = s.lastSpeed ∧
    (speedoCall none s).2.ended = true ∧
    (speedoCall none s).2.timerActive = false ∧
    (speedoCall none s).2.lastSpeed = s.lastSpeed ∧
    (∀ r ∈ (speedoRun ops (speedoCall none s).2).2, r = s.lastSpeed) ∧
    (speedoRun ops (speedoCall none s).2).1.lastSpeed = s.lastSpeed ∧
    (speedoRun ops (speedoCall none s).2).1.ended = true := by
  have hcall : speedoCall none s
      = (s.lastSpeed, { s with ended := true, timerActive := false, buffer := [] }) := by
    simp [speedoCall, h]
  rw [hcall]
  have key := speedoRun_ended ops { s with ended := true, timerActive := false, buffer := [] } rfl
  exact ⟨rfl, rfl, rfl, rfl, key.2.2.2, key.2.1, key.1⟩

/-- C8 witness: a freshly started speedometer, ended by the sentinel and
then driven by a delta call, a timer tick and another sentinel, keeps
returning its frozen rate. -/
theorem c8_speedometer_freeze_witness :
    (speedometerInit 5).ended = false ∧
    ((speedoCall none (speedometerInit 5)).1 = (speedometerInit 5).lastSpeed ∧
     (speedoCall none (speedometerInit 5)).2.ended = true ∧
     (speedoCall none (speedometerInit 5)).2.timerActive = false ∧
     (speedoCall none (speedometerInit 5)).2.lastSpeed = (speedometerInit 5).lastSpeed ∧
     (∀ r ∈ (speedoRun [SpeedoOp.call (some 2), SpeedoOp.timer, SpeedoOp.call none]
         (speedoCall none (speedometerInit 5)).2).2, r = (speedometerInit 5).lastSpeed) ∧
     (speedoRun [SpeedoOp.call (some 2), SpeedoOp.timer, SpeedoOp.call none]
         (speedoCall none (speedometerInit 5)).2).1.lastSpeed = (speedometerInit 5).lastSpeed ∧
     (speedoRun [SpeedoOp.call (some 2), SpeedoOp.timer, SpeedoOp.call none]
         (speedoCall none (speedometerInit 5)).2).1.ended = true) :=
  ⟨rfl, c8_speedometer_freeze (speedometerInit 5)
    [SpeedoOp.call (some 2), SpeedoOp.timer, SpeedoOp.call none] rfl⟩

theorem digitChar_ne_brace (n : ℕ) : digitChar n ≠ '{' := by
  unfold digitChar
  split <;> decide

theorem natDecChars_ne_brace (n : ℕ) : ∀ c ∈ natDecChars n, c ≠ '{' := by
  induction n using Nat.strong_induction_on with
  | _ n ih =>
    rw [natDecChars]
    split
    · intro c hc
      rw [List.mem_singleton] at hc
      subst hc
      exact digitChar_ne_brace _
    · intro c hc
      rcases List.mem_append.mp hc with h | h
      · exact ih (n / 10) (Nat.div_lt_self (by omega) (by omega)) c h
      · rw [List.mem_singleton] at h
        subst h
        exact digitChar_ne_brace _

theorem toFixed1Abs_ne_brace (q : ℚ) : ∀ c ∈ (toFixed1Abs q).data, c ≠ '{' := by
  intro c hc
  rcases List.mem_append.mp hc with h | h
  · exact natDecChars_ne_brace _ c h
  · rcases List.mem_cons.mp h with h' | h'
    · subst h'
      decide
    · exact natDecChars_ne_brace _ c h'

theorem toFixed1_ne_brace (q : ℚ) : ∀ c ∈ (toFixed1 q).data, c ≠ '{' := by
  unfold toFixed1
  split
  · intro c hc
    rw [String.data_append] at hc
    rcases List.mem_append.mp hc with h | h
    · rcases List.mem_singleton.mp h with rfl
      decide
    · exact toFixed1Abs_ne_brace _ c h
  · exact toFixed1Abs_ne_brace q

theorem toFixed1Js_ne_brace (v : JsNum) : ∀ c ∈ (toFixed1Js v).data, c ≠ '{' := by
  cases v with
  | num q => exact toFixed1_ne_brace q
  | posInf => decide
  | negInf => decide
  | nan => decide

theorem lrf_skip_of_nobrace (m : List Char) (tl r : List Char)
    (hm : ∀ x ∈ m, x ≠ '{') : listReplaceFirst m ('{' :: tl) r = m := by
  induction m with
  | nil => rfl
  | cons a rest ih =>
      have ha : a ≠ '{' := hm a (List.mem_cons_self _ _)
      have hpre : (('{' :: tl).isPrefixOf (a :: rest)) = false := by
        simp only [List.isPrefixOf, Bool.and_eq_false_iff, beq_eq_false_iff_ne]
        exact Or.inl fun h => ha h.symm
      rw [listReplaceFirst, hpre]
      simp only [Bool.false_eq_true, if_false]
      rw [ih fun x hx => hm x (List.mem_cons_of_mem _ hx)]

theorem lrf_skip_percent (m : List Char) (r : List Char) (hm : ∀ x ∈ m, x ≠ '{') :
    listReplaceFirst ('{' :: 'b' :: 'a' :: 'r' :: '}' :: ' ' :: m) ("{percent}".data) r
      = '{' :: 'b' :: 'a' :: 'r' :: '}' :: ' ' :: m := by
  have h5 : listReplaceFirst ('{' :: 'b' :: 'a' :: 'r' :: '}' :: ' ' :: m) ("{percent}".data) r
      = '{' :: 'b' :: 'a' :: 'r' :: '}' :: ' ' :: listReplaceFirst m ("{percent}".data) r := rfl
  rw [h5,
    lrf_skip_of_nobrace m ['p', 'e', 'r', 'c', 'e', 'n', 't', '}'] r hm]

theorem lrf_skip_speed (m : List Char) (r : List Char) (hm : ∀ x ∈ m, x ≠ '{') :
    listReplaceFirst ('{' :: 'b' :: 'a' :: 'r' :: '}' :: ' ' :: m) ("{speed}".data) r
      = '{' :: 'b' :: 'a' :: 'r' :: '}' :: ' ' :: m := by
  have h5 : listReplaceFirst ('{' :: 'b' :: 'a' :: 'r' :: '}' :: ' ' :: m) ("{speed}".data) r
      = '{' :: 'b' :: 'a' :: 'r' :: '}' :: ' ' :: listReplaceFirst m ("{speed}".data) r := rfl
  rw [h5, lrf_skip_of_nobrace m ['s', 'p', 'e', 'e', 'd', '}'] r hm]

theorem builtinSubst_bar_eta (s : BarState) (hf : s.format = "{bar} {eta}") :
    builtinSubst s = "{bar} " ++ toFixed1Js (jsNumDivPos s.progress.eta 1000) := by
  unfold builtinSubst
  rw [hf]
  have e1 : ∀ x : String, replaceFirst "{bar} {eta}" "{current}" x = "{bar} {eta}" :=
    fun _ => rfl
  have e2 : ∀ x : String, replaceFirst "{bar} {eta}" "{total}" x = "{bar} {eta}" :=
    fun _ => rfl
  have e3 : ∀ x : String, replaceFirst "{bar} {eta}" "{elapsed}" x = "{bar} {eta}" :=
    fun _ => rfl
  rw [e1, e2, e3]
  have e4 : replaceFirst "{bar} {eta}" "{eta}" (toFixed1Js (jsNumDivPos s.progress.eta 1000))
      = ⟨'{' :: 'b' :: 'a' :: 'r' :: '}' :: ' ' ::
          ((toFixed1Js (jsNumDivPos s.progress.eta 1000)).data ++ [])⟩ := rfl
  rw [e4, List.append_nil]
  have hm : ∀ x ∈ (toFixed1Js (jsNumDivPos s.progress.eta 1000)).data, x ≠ '{' :=
    toFixed1Js_ne_brace _
  have e5 : replaceFirst
      ⟨'{' :: 'b' :: 'a' :: 'r' :: '}' :: ' ' :: (toFixed1Js (jsNumDivPos s.progress.eta 1000)).data⟩
      "{percent}" (toFixed1 s.progress.percent ++ "%")
      = ⟨'{' :: 'b' :: 'a' :: 'r' :: '}' :: ' ' ::
          (toFixed1Js (jsNumDivPos s.progress.eta 1000)).data⟩ := by
    unfold replaceFirst
    exact congrArg String.mk (lrf_skip_percent _ _ hm)
  rw [e5]
  have e6 : replaceFirst
      ⟨'{' :: 'b' :: 'a' :: 'r' :: '}' :: ' ' :: (toFixed1Js (jsNumDivPos s.progress.eta 1000)).data⟩
      "{speed}" (s.formatValue (roundQ s.progress.speed 2))
      = ⟨'{' :: 'b' :: 'a' :: 'r' :: '}' :: ' ' ::
          (toFixed1Js (jsNumDivPos s.progress.eta 1000)).data⟩ := by
    unfold replaceFirst
    exact congrArg String.mk (lrf_skip_speed _ _ hm)
  rw [e6]
  rfl

/-! # Claim C9 -/

/-- C9: in a rendered frame the eta token's text is toFixed(1) of
eta / 1000 — one thousandth of the eta the metrics update stores, even
though that stored eta is already in seconds: it is remaining divided by
a speed measured in units per second. -/
theorem c9_eta_token_scaled_by_1000 (s : BarState) (t : ℚ)
    (hf : s.format = "{bar} {eta}") (ht : s.total? = some t)
    (hr : 0 < (s.endTime - s.startTime) / 1000) :
    builtinSubst (BarState.update s)
      = "{bar} " ++ toFixed1Js (jsNumDivPos (jsRound3 (jsDivQ (t - s.progress.current)
          (s.progress.current / ((s.endTime - s.startTime) / 1000)))) 1000) := by
  have hfmt : (BarState.update s).format = s.format := by
    unfold BarState.update
    rfl
  have heta : (BarState.update s).progress.eta
      = jsRound3 (jsDivQ (t - s.progress.current)
          (s.progress.current / ((s.endTime - s.startTime) / 1000))) := by
    unfold BarState.update
    rw [ht]
    dsimp only
    rw [if_pos hr]
  rw [builtinSubst_bar_eta (BarState.update s) (hfmt.trans hf), heta]

/-- C9 witness: the concrete bar (total 10, current 2, one second
elapsed, format showing the eta token) renders its eta — 4 seconds — as
toFixed(1) of 4 / 1000. -/
theorem c9_eta_token_scaled_by_1000_witness :
    barEta.format = "{bar} {eta}" ∧ barEta.total? = some 10 ∧
    0 < (barEta.endTime - barEta.startTime) / 1000 ∧
    builtinSubst (BarState.update barEta)
      = "{bar} " ++ toFixed1Js (jsNumDivPos (jsRound3 (jsDivQ ((10 : ℚ) - barEta.progress.current)
          (barEta.progress.current / ((barEta.endTime - barEta.startTime) / 1000)))) 1000) :=
  ⟨rfl, rfl, by norm_num [barEta],
    c9_eta_token_scaled_by_1000 barEta 10 rfl rfl (by norm_num [barEta])⟩

theorem barAvail_nonneg (env : Env) (s : BarState) : 0 ≤ barAvail env s := by
  unfold barAvail
  dsimp only
  split
  · rename_i h
    simp only [Bool.and_eq_true, decide_eq_true_eq] at h
    linarith [h.2]
  · exact le_max_left 0 _

theorem barMinW_nonneg (env : Env) (s : BarState) (h5 : 0 ≤ s.minWidth) :
    0 ≤ barMinW env s := by
  unfold barMinW
  split
  · exact barAvail_nonneg env s
  · exact h5

theorem barWidth_nonneg (env : Env) (s : BarState) (h5 : 0 ≤ s.minWidth) :
    0 ≤ barWidth env s := by
  unfold barWidth
  cases s.width? with
  | none => exact barAvail_nonneg env s
  | some w =>
      dsimp only
      exact le_min (le_trans (barMinW_nonneg env s h5) (le_max_right _ _))
        (barAvail_nonneg env s)

theorem barFill_bounds (env : Env) (s : BarState) (h2 : 0 < s.progress.total)
    (h3 : 0 ≤ s.progress.current) (h4 : s.progress.current ≤ s.progress.total)
    (h5 : 0 ≤ s.minWidth) :
    0 ≤ barFill env s ∧ barFill env s ≤ barWidth env s := by
  unfold barFill
  have hw0 : 0 ≤ barWidth env s := barWidth_nonneg env s h5
  have hfrac : barFrac s = s.progress.current / s.progress.total := by
    unfold barFrac
    rw [if_neg (ne_of_gt h2)]
  rw [hfrac]
  have hf0 : 0 ≤ s.progress.current / s.progress.total := div_nonneg h3 (le_of_lt h2)
  have hf1 : s.progress.current / s.progress.total ≤ 1 := (div_le_one h2).mpr h4
  have hwq : (0:ℚ) ≤ (barWidth env s : ℚ) := by exact_mod_cast hw0
  constructor
  · unfold jsRoundInt
    apply Int.le_floor.mpr
    push_cast
    nlinarith
  · unfold jsRoundInt
    have hx : (barWidth env s : ℚ) * (s.progress.current / s.progress.total) + 1/2
        ≤ (barWidth env s : ℚ) + 1/2 := by
      nlinarith
    calc Int.floor ((barWidth env s : ℚ) * (s.progress.current / s.progress.total) + 1/2)
        ≤ Int.floor ((barWidth env s : ℚ) + 1/2) := Int.floor_le_floor hx
      _ = barWidth env s + Int.floor ((1:ℚ)/2) := Int.floor_int_add _ _
      _ = barWidth env s := by norm_num

theorem replicate_dropLast_append (k : ℕ) (c : Char) (hk : 1 ≤ k) :
    (List.replicate k c).dropLast ++ [c] = List.replicate k c := by
  conv_lhs => rw [show k = k - 1 + 1 by omega, List.replicate_succ']
  rw [List.dropLast_concat, ← List.replicate_succ']
  congr 1
  omega

theorem barSection_eq (cc ic : Char) (width fill : ℤ) (h0 : 0 ≤ fill) (h1 : fill ≤ width) :
    barSection cc ic width fill
      = List.replicate fill.toNat cc ++ List.replicate (width - fill).toNat ic := by
  unfold barSection jsRepeat
  dsimp only
  rw [max_eq_right (by omega : (0:ℤ) ≤ width - fill + 1),
    max_eq_right (by omega : (0:ℤ) ≤ fill + 1)]
  have hinc : (width - fill + 1).toNat - 1 = (width - fill).toNat := by omega
  have hcom : (fill + 1).toNat - 1 = fill.toNat := by omega
  rw [hinc, hcom]
  by_cases hf : 0 < fill
  · rw [if_pos hf]
    congr 1
    exact replicate_dropLast_append fill.toNat cc (by omega)
  · rw [if_neg hf]

/-! # Claim C7 -/

/-- C7: in every frame rendered with the terminal columns exceeding the
non-bar content length and a set total, the bar region is exactly
fill copies of the complete glyph followed by width - fill copies of the
incomplete glyph, with fill = Math.round(width * current / total): the
off-by-one of Array(n).join and the head-glyph re-attachment cancel out
exactly. -/
theorem c7_bar_geometry (env : Env) (s : BarState)
    (hcols : ((nonbarStr s).data.length : ℤ) < env.columns)
    (h2 : 0 < s.progress.total) (h3 : 0 ≤ s.progress.current)
    (h4 : s.progress.current ≤ s.progress.total) (h5 : 0 ≤ s.minWidth) :
    renderFrame env s
      = replaceFirst (frameTokens s) "{bar}"
          ⟨List.replicate (barFill env s).toNat s.completeChar
            ++ List.replicate (barWidth env s - barFill env s).toNat s.incompleteChar⟩ ∧
    barFill env s = jsRoundInt ((barWidth env s : ℚ)
        * (s.progress.current / s.progress.total)) := by
  have hfrac : barFrac s = s.progress.current / s.progress.total := by
    unfold barFrac
    rw [if_neg (ne_of_gt h2)]
  obtain ⟨hb0, hb1⟩ := barFill_bounds env s h2 h3 h4 h5
  constructor
  · unfold renderFrame
    dsimp only
    rw [if_pos hcols, barSection_eq _ _ _ _ hb0 hb1]
  · unfold barFill
    rw [hfrac]


theorem natDecChars50 : natDecChars 50 = ['5', '0'] := by
  rw [natDecChars]
  rw [dif_neg (by norm_num)]
  norm_num
  rw [natDecChars, dif_pos (by norm_num)]
  rfl

theorem toFixed1_fifty : toFixed1 (50 : ℚ) = "50.0" := by
  unfold toFixed1
  rw [if_neg (by norm_num)]
  unfold toFixed1Abs
  have hfl : Int.floor ((10:ℚ) * 50 + 1/2) = 500 := by norm_num
  dsimp only
  rw [hfl]
  have h1 : Int.toNat 500 / 10 = 50 := by decide
  have h2 : Int.toNat 500 % 10 = 0 := by decide
  rw [h1, h2, natDecChars50]
  rw [natDecChars, dif_pos (by norm_num)]
  rfl

theorem nonbar_barHalf : nonbarStr barHalf = " 50.0%" := by
  unfold nonbarStr frameTokens customSubst builtinSubst
  rw [show toFixed1 barHalf.progress.percent = "50.0" from toFixed1_fifty]
  rfl

theorem barWidth_barHalf : barWidth demoEnvTTY barHalf = 40 := by
  unfold barWidth barMinW barAvail
  rw [nonbar_barHalf]
  decide

theorem barFill_barHalf : barFill demoEnvTTY barHalf = 20 := by
  unfold barFill barFrac
  rw [barWidth_barHalf]
  norm_num [jsRoundInt, barHalf, progress0]

/-- C7 witness: at current 50 of total 100 with configured width 40 on an
80-column terminal, the bar width is 40 and the fill is exactly 20
complete cells. -/
theorem c7_bar_geometry_witness :
    ((nonbarStr barHalf).data.length : ℤ) < demoEnvTTY.columns ∧
    (0:ℚ) < barHalf.progress.total ∧
    barWidth demoEnvTTY barHalf = 40 ∧ barFill demoEnvTTY barHalf = 20 ∧
    renderFrame demoEnvTTY barHalf
      = replaceFirst (frameTokens barHalf) "{bar}"
          ⟨List.replicate (barFill demoEnvTTY barHalf).toNat barHalf.completeChar
            ++ List.replicate (barWidth demoEnvTTY barHalf
                - barFill demoEnvTTY barHalf).toNat barHalf.incompleteChar⟩ := by
  have hlen : ((nonbarStr barHalf).data.length : ℤ) < demoEnvTTY.columns := by
    rw [nonbar_barHalf]
    decide
  refine ⟨hlen, by norm_num [barHalf, progress0], barWidth_barHalf, barFill_barHalf, ?_⟩
  exact (c7_bar_geometry demoEnvTTY barHalf hlen (by norm_num [barHalf, progress0])
    (by norm_num [barHalf, progress0]) (by norm_num [barHalf, progress0])
    (by norm_num [barHalf])).1
